import Mathlib

/-!
Verification of go-watcher (wilhelm-murdoch/go-watcher).

Shallow embedding of `watcher.go` — a wrapper around the `fsnotify`
file-system notification collaborator that routes raw events to per-category
callbacks plus a catch-all callback, with cooperative shutdown.

Modelling conventions:

* Go `error` values become `Option Err` (`none` = nil).  `Err` is an inductive
  type: `Err.msg s` models `errors.New(s)` and arbitrary handler-produced or
  collaborator-produced errors; `Err.eventNotSupported op` models
  `fmt.Errorf("event %s not supported", event)` (the rendering of the `Op`
  into the message text is abbreviated to the numeric op value).
* `fsnotify.Op` is a bitmask; we model it as `Nat` with the constants from
  fsnotify (`Create = 1, Write = 2, Remove = 4, Rename = 8, Chmod = 16`) and
  the bit test `op &&& mask == mask` exactly as written in the source.
* `os.Stat` is an effect; the dispatch loop takes a `stat` oracle
  `String → Option FileInfo × Option Err` mirroring Go's
  `(os.FileInfo, error)` return.
* The `select` in `Watch`'s goroutine waits on three channels (raw events,
  the done signal, source errors).  We model the nondeterministic arrival
  order as an explicit list of `LoopInput`s consumed in order; `LoopInput.done`
  models consuming the value sent by `Done()` on the capacity-1 `done` channel.
* The fsnotify collaborator's registry (`Add` / `WatchList`) is modelled as a
  duplicate-free list of paths (`FsnState`); its failure modes for invalid
  paths are outside every claim and are modelled as success.
* `filepath.WalkDir` is, per the spec, an out-of-scope path-enumeration
  utility; a successful walk is modelled as the list of visited entries
  (full path plus is-directory flag) in traversal order.
-/

/-- Go `error` values (nil becomes `none : Option Err`). -/
inductive Err
  | msg (s : String)
  | eventNotSupported (op : Nat)
deriving DecidableEq, Repr

/-- fsnotify bitmask constant `Create = 1 << 0`. -/
def Create : Nat := 1
/-- fsnotify bitmask constant `Write = 1 << 1`. -/
def Write : Nat := 2
/-- fsnotify bitmask constant `Remove = 1 << 2`. -/
def Remove : Nat := 4
/-- fsnotify bitmask constant `Rename = 1 << 3`. -/
def Rename : Nat := 8
/-- fsnotify bitmask constant `Chmod = 1 << 4`. -/
def Chmod : Nat := 16

/-- The bit test `event.Op & mask == mask` from the dispatch switch. -/
def hasOp (op mask : Nat) : Bool := op &&& mask == mask

/-- Model of `fsnotify.Event`: a raw event carries a path and an op bitmask. -/
structure Event where
  name : String
  op : Nat
deriving DecidableEq, Repr

/-- A loose model of `os.FileInfo` (handlers receive it but the core never
inspects it). -/
structure FileInfo where
  size : Nat
  isDir : Bool
deriving DecidableEq, Repr

/-- The callback signature `func(fsnotify.Event, os.FileInfo, error) error`.
The `os.FileInfo` argument may be a nil interface (stat failure), hence
`Option FileInfo`. -/
def Handler := Event → Option FileInfo → Option Err → Option Err

/-- The result pair of `os.Stat(name)`: `(info, err)`. -/
def StatOracle := String → Option FileInfo × Option Err

/-- The state of the fsnotify collaborator's watch registry. -/
structure FsnState where
  paths : List String
deriving DecidableEq, Repr

/-- Collaborator `fsnotify.Add`: registers a path; the registry is a set
(adding a present path is idempotent). -/
def FsnState.Add (s : FsnState) (p : String) : FsnState :=
  if p ∈ s.paths then s else ⟨s.paths ++ [p]⟩

/-- The `Watcher` struct from `watcher.go`.  The `done` channel is not part
of the state: its consumption is modelled by `LoopInput.done`. -/
structure Watcher where
  fsnotify : FsnState
  hasCallbacks : Bool
  onAll : Option Handler
  onRemove : Option Handler
  onCreate : Option Handler
  onWrite : Option Handler
  onRename : Option Handler
  onChmod : Option Handler

/-- Model of `New()`.  `fsnCtor` is the `(watcher, error)` pair produced by the
collaborator constructor `fsnotify.NewWatcher()`; the source discards the
error component with a blank identifier (`fsn, _ :=`) and unconditionally
returns a watcher together with a nil error. -/
def New (fsnCtor : FsnState × Option Err) : Watcher × Option Err :=
  (⟨fsnCtor.1, false, none, none, none, none, none, none⟩, none)

/-- Model of `AddPath`: delegates to the collaborator's `Add` and returns its error
(always nil in this model of the collaborator). -/
def Watcher.AddPath (w : Watcher) (path : String) : Watcher × Option Err :=
  ({ w with fsnotify := w.fsnotify.Add path }, none)

/-- One entry visited by `filepath.WalkDir`: its full path and whether it is
a directory. -/
structure WalkEntry where
  path : String
  isDir : Bool
deriving DecidableEq, Repr

/-- Model of `WalkPath(root)`: a successful `filepath.WalkDir` traversal visits
`entries` in order; the callback calls `AddPath` on every directory entry
(ignoring `AddPath`'s return value) and skips plain files, then the walk
returns nil. -/
def Watcher.WalkPath (w : Watcher) (entries : List WalkEntry) :
    Watcher × Option Err :=
  (entries.foldl
    (fun acc en => if en.isDir then (acc.AddPath en.path).1 else acc) w, none)

/-- Model of `AddGlob(pattern)`: a successful `filepath.Glob` expansion yields
`matches`; each match is passed to `AddPath` (return value ignored). -/
def Watcher.AddGlob (w : Watcher) (ms : List String) :
    Watcher × Option Err :=
  (ms.foldl (fun acc p => (acc.AddPath p).1) w, none)

/-- Model of `On(event, f)`: the switch assigns the matching callback field and falls
through to set `hasCallbacks`; the default case returns
`fmt.Errorf("event %s not supported", event)` without touching the struct. -/
def Watcher.On (w : Watcher) (event : Nat) (f : Handler) :
    Watcher × Option Err :=
  if event = Write then
    ({ w with onWrite := some f, hasCallbacks := true }, none)
  else if event = Create then
    ({ w with onCreate := some f, hasCallbacks := true }, none)
  else if event = Remove then
    ({ w with onRemove := some f, hasCallbacks := true }, none)
  else if event = Rename then
    ({ w with onRename := some f, hasCallbacks := true }, none)
  else if event = Chmod then
    ({ w with onChmod := some f, hasCallbacks := true }, none)
  else
    (w, some (Err.eventNotSupported event))

/-- Model of `All(f)`: unconditionally installs the catch-all and sets
`hasCallbacks`. -/
def Watcher.All (w : Watcher) (f : Handler) : Watcher :=
  { w with onAll := some f, hasCallbacks := true }

/-- Model of `List()`: wraps the collaborator's `WatchList()`. -/
def Watcher.List (w : Watcher) := w.fsnotify.paths

/-- Arrival alternatives: the signal sent by `Done()` and the other two `select` arms: one iteration of the
dispatch loop consumes exactly one of these. -/
inductive LoopInput
  | ev (e : Event)
  | done
  | srcErr (err : Err)
deriving DecidableEq, Repr

/-- The category-handler phase of one dispatch iteration: the `switch` over
`event.Op` bit tests, in source order `Write, Create, Remove, Rename, Chmod`;
the first matching case runs (its handler only if non-nil, overwriting the
held error), and no later case is examined.  Returns the held error after
the switch together with the list of op constants whose category handler
was actually invoked. -/
def categoryStep (w : Watcher) (e : Event) (info : Option FileInfo)
    (err0 : Option Err) : Option Err × List Nat :=
  if hasOp e.op Write then
    match w.onWrite with
    | some f => (f e info err0, [Write])
    | none => (err0, [])
  else if hasOp e.op Create then
    match w.onCreate with
    | some f => (f e info err0, [Create])
    | none => (err0, [])
  else if hasOp e.op Remove then
    match w.onRemove with
    | some f => (f e info err0, [Remove])
    | none => (err0, [])
  else if hasOp e.op Rename then
    match w.onRename with
    | some f => (f e info err0, [Rename])
    | none => (err0, [])
  else if hasOp e.op Chmod then
    match w.onChmod with
    | some f => (f e info err0, [Chmod])
    | none => (err0, [])
  else (err0, [])

/-- The held error after the category phase of dispatching `e` (stat result
fed in as the initial held error, exactly as `info, err := os.Stat(...)`). -/
def categoryErr (w : Watcher) (stat : StatOracle) (e : Event) : Option Err :=
  (categoryStep w e (stat e.name).1 (stat e.name).2).1

/-- Observable outcome of one full dispatch iteration for an event. -/
structure DispatchResult where
  err : Option Err
  invoked : List Nat
  allInvoked : Bool
deriving DecidableEq, Repr

/-- One full dispatch iteration for event `e`: stat the path, run the
category switch, then (if registered) the catch-all, which overwrites the
held error. -/
def dispatchEvent (w : Watcher) (stat : StatOracle) (e : Event) :
    DispatchResult :=
  let info := (stat e.name).1
  let err0 := (stat e.name).2
  let step := categoryStep w e info err0
  match w.onAll with
  | some f => ⟨f e info step.1, step.2, true⟩
  | none => ⟨step.1, step.2, false⟩

/-- The dispatch goroutine's `for`/`select` loop over the arrival order
`inputs`.  Returns the list of events whose handler chain ran, and `none`
when the loop is still blocked after consuming all of `inputs`, or
`some (ret, closes)` when it returned — `ret` the returned error value and
`closes` the number of `fsnotify.Close()` calls made on that path. -/
def watchLoop (w : Watcher) (stat : StatOracle) :
    List LoopInput → List Event × Option (Option Err × Nat)
  | [] => ([], none)
  | .ev e :: rest =>
    match (dispatchEvent w stat e).err with
    | some er => ([e], some (some er, 0))
    | none =>
      let r := watchLoop w stat rest
      (e :: r.1, r.2)
  | .done :: _ => ([], some (none, 1))
  | .srcErr er :: _ => ([], some (some er, 0))

/-- The value of `errors.New("no files specified to watch")`. -/
def noTargetsError : Err := Err.msg "no files specified to watch"

/-- The value of `errors.New("no event type callbacks ...")`. -/
def noHandlersError : Err :=
  Err.msg "no event type callbacks have been defined; nothing to process"

/-- Outcome of `Watch()`: a precondition error returned synchronously before
the goroutine is started, or the (blocking) join on the dispatch loop —
still blocked, or terminated with the loop's returned error and close
count. -/
inductive WatchResult
  | precondErr (e : Err)
  | blocked (processed : List Event)
  | terminated (ret : Option Err) (closes : Nat) (processed : List Event)
deriving DecidableEq, Repr

/-- Model of `Watch()`: checks the two preconditions synchronously, then starts the
single dispatch goroutine and blocks on `group.Wait()`, whose result is the
loop's returned error. -/
def Watch (w : Watcher) (stat : StatOracle) (inputs : List LoopInput) :
    WatchResult :=
  if (Watcher.List w).length = 0 then .precondErr noTargetsError
  else if !w.hasCallbacks then .precondErr noHandlersError
  else
    match watchLoop w stat inputs with
    | (es, none) => .blocked es
    | (es, some (ret, c)) => .terminated ret c es

/-- From the spec's words (§4.3 step 2): the fixed precedence order for
primary-category resolution — Write, Create, Remove, Rename, Chmod. -/
def specPrecedence : List Nat := [Write, Create, Remove, Rename, Chmod]

/-- The recognized categories reported by a raw event's bitmask, listed in
the spec's precedence order. -/
def categoriesOf (op : Nat) : List Nat :=
  specPrecedence.filter (fun m => hasOp op m)

/-- From the spec's words: the primary category of a raw event is the first
category in precedence order whose bit is set. -/
def specPrimaryCategory (op : Nat) : Option Nat := (categoriesOf op).head?

/-- The callback field the source consults for a given single category. -/
def handlerFor (w : Watcher) (c : Nat) : Option Handler :=
  if c = Write then w.onWrite
  else if c = Create then w.onCreate
  else if c = Remove then w.onRemove
  else if c = Rename then w.onRename
  else if c = Chmod then w.onChmod
  else none

/-- The callback field the dispatch switch would consult for an op bitmask:
the field of the first case whose bit test passes (none when no case
matches). -/
def selectedHandler (w : Watcher) (op : Nat) : Option Handler :=
  if hasOp op Write then w.onWrite
  else if hasOp op Create then w.onCreate
  else if hasOp op Remove then w.onRemove
  else if hasOp op Rename then w.onRename
  else if hasOp op Chmod then w.onChmod
  else none

/-- The events carried by a list of loop inputs, in order. -/
def eventsOf (inputs : List LoopInput) : List Event :=
  inputs.filterMap fun i =>
    match i with
    | .ev e => some e
    | _ => none

/-- A path-registration call: one of the three registry operations, none of
which touches the callback table. -/
inductive PathOp
  | add (p : String)
  | walk (entries : List WalkEntry)
  | glob (ms : List String)

/-- Application of one path-registration call (its returned error is
discarded by the caller). -/
def applyPathOp (w : Watcher) : PathOp → Watcher
  | .add p => (w.AddPath p).1
  | .walk entries => (w.WalkPath entries).1
  | .glob ms => (w.AddGlob ms).1

/-- Application of a sequence of path-registration calls. -/
def applyPathOps (w : Watcher) (ops : List PathOp) : Watcher :=
  ops.foldl applyPathOp w

/-- Folding the collaborator's `Add` over a list of paths. -/
def addAll (s : FsnState) (l : List String) : FsnState :=
  l.foldl FsnState.Add s

/-- The full paths of the directory entries of a walk, in visit order. -/
def dirPaths (entries : List WalkEntry) : List String :=
  (entries.filter (fun en => en.isDir)).map (fun en => en.path)

/-- The full paths of the plain-file entries of a walk, in visit order. -/
def filePaths (entries : List WalkEntry) : List String :=
  (entries.filter (fun en => en.isDir = false)).map (fun en => en.path)

/-- A stat oracle that always succeeds. -/
def statEx : StatOracle := fun _ => (some ⟨0, false⟩, none)

/-- A stat oracle that always fails (file gone between event and stat). -/
def statFailEx : StatOracle := fun _ => (none, some (Err.msg "stat fail"))

/-- A handler that always succeeds. -/
def handlerOk : Handler := fun _ _ _ => none

/-- A handler that always fails. -/
def handlerBoom : Handler := fun _ _ _ => some (Err.msg "boom")

/-- An empty collaborator registry. -/
def fsnEmpty : FsnState := ⟨[]⟩

/-- A watcher with one target whose only callback is a failing `Write`
handler. -/
def wWriteBoom : Watcher :=
  ⟨⟨["a"]⟩, true, none, none, none, some handlerBoom, none, none⟩

/-- A watcher with one target whose only callback is a succeeding catch-all
handler. -/
def wAllOk : Watcher :=
  ⟨⟨["a"]⟩, true, some handlerOk, none, none, none, none, none⟩

/-- A watcher with one target whose only callback is a failing catch-all
handler. -/
def wAllBoom : Watcher :=
  ⟨⟨["a"]⟩, true, some handlerBoom, none, none, none, none, none⟩

/-- A watcher with one target whose only callback is a `Chmod` handler. -/
def wChmodOnly : Watcher :=
  ⟨⟨["a"]⟩, true, none, none, none, none, none, some handlerOk⟩

/-- A write event on path "a". -/
def evWrite : Event := ⟨"a", Write⟩

/-- A walk of a root directory holding one plain file and one
subdirectory. -/
def walkEx : List WalkEntry :=
  [⟨"r", true⟩, ⟨"r/a.txt", false⟩, ⟨"r/sub", true⟩]

/-- The category handlers invoked by a dispatch iteration are those of the
category phase (the catch-all is tracked separately). -/
theorem dispatch_invoked (w : Watcher) (stat : StatOracle) (e : Event) :
    (dispatchEvent w stat e).invoked =
      (categoryStep w e (stat e.name).1 (stat e.name).2).2 := by
  unfold dispatchEvent
  cases h : w.onAll <;> simp [h]

/-- Characterization of the category phase: at most the handler of the
first category in precedence order whose bit is set is invoked, and only
when it is registered. -/
theorem categoryStep_invoked (w : Watcher) (e : Event) (info : Option FileInfo)
    (err0 : Option Err) :
    (categoryStep w e info err0).2 =
      match specPrimaryCategory e.op with
      | some c => if (handlerFor w c).isSome then [c] else []
      | none => [] := by
  unfold categoryStep specPrimaryCategory categoriesOf specPrecedence handlerFor
  simp only [Write, Create, Remove, Rename, Chmod]
  by_cases hW : hasOp e.op 2
  · simp [hW]
    cases w.onWrite <;> simp
  · by_cases hC : hasOp e.op 1
    · simp [hW, hC]
      cases w.onCreate <;> simp
    · by_cases hR : hasOp e.op 4
      · simp [hW, hC, hR]
        cases w.onRemove <;> simp
      · by_cases hN : hasOp e.op 8
        · simp [hW, hC, hR, hN]
          cases w.onRename <;> simp
        · by_cases hM : hasOp e.op 16
          · simp [hW, hC, hR, hN, hM]
            cases w.onChmod <;> simp
          · simp [hW, hC, hR, hN, hM]

/-- C1: for every raw event whose category bits contain more than one of
the five recognized categories, the dispatch loop invokes only the handler
(if registered) for the first category in the precedence order Write,
Create, Remove, Rename, Chmod whose bit is set. -/
theorem c1_primary_category_precedence (w : Watcher) (stat : StatOracle)
    (e : Event) (c : Nat)
    (hmulti : 2 ≤ (categoriesOf e.op).length)
    (hc : specPrimaryCategory e.op = some c) :
    (dispatchEvent w stat e).invoked =
      if (handlerFor w c).isSome then [c] else [] := by
  rw [dispatch_invoked, categoryStep_invoked, hc]

/-- Witness for C1: a raw event with both the Write and Create bits set and
a registered Write handler invokes exactly the Write handler. -/
theorem c1_witness :
    2 ≤ (categoriesOf 3).length ∧ specPrimaryCategory 3 = some Write ∧
    (dispatchEvent wWriteBoom statEx ⟨"a", 3⟩).invoked =
      (if (handlerFor wWriteBoom Write).isSome then [Write] else []) :=
  ⟨by decide, by decide,
    c1_primary_category_precedence wWriteBoom statEx ⟨"a", 3⟩ Write
      (by decide) (by decide)⟩

/-- When the handler chain of an event leaves a non-nil error, the dispatch
loop returns it at once, without closing the notification resource and
without touching the remaining inputs. -/
theorem watch_step_fatal (w : Watcher) (stat : StatOracle) (e : Event)
    (rest : List LoopInput) (er : Err)
    (hpaths : Watcher.List w ≠ []) (hcb : w.hasCallbacks = true)
    (herr : (dispatchEvent w stat e).err = some er) :
    Watch w stat (.ev e :: rest) = .terminated (some er) 0 [e] := by
  have hlen : ¬ (Watcher.List w).length = 0 := by simpa using hpaths
  unfold Watch
  rw [if_neg hlen, hcb]
  simp only [watchLoop, herr, Bool.not_true, Bool.false_eq_true, if_false]

/-- C2: a non-nil error held after an event's handler chain terminates the
dispatch loop immediately; the watch returns that error and no later input
is processed. -/
theorem c2_handler_error_fatal (w : Watcher) (stat : StatOracle) (e : Event)
    (rest : List LoopInput) (er : Err)
    (hpaths : Watcher.List w ≠ []) (hcb : w.hasCallbacks = true)
    (herr : (dispatchEvent w stat e).err = some er) :
    Watch w stat (.ev e :: rest) = .terminated (some er) 0 [e] :=
  watch_step_fatal w stat e rest er hpaths hcb herr

/-- Witness for C2: with a failing Write handler, the watch returns the
handler's error after the first event and processes nothing further. -/
theorem c2_witness :
    wWriteBoom.List ≠ [] ∧ wWriteBoom.hasCallbacks = true ∧
    (dispatchEvent wWriteBoom statEx evWrite).err = some (Err.msg "boom") ∧
    Watch wWriteBoom statEx [LoopInput.ev evWrite, LoopInput.ev evWrite] =
      .terminated (some (Err.msg "boom")) 0 [evWrite] :=
  ⟨by decide, rfl, by decide,
    c2_handler_error_fatal wWriteBoom statEx evWrite [LoopInput.ev evWrite]
      (Err.msg "boom") (by decide) rfl (by decide)⟩

/-- C3: a registered catch-all handler is invoked on every event regardless
of whether a category handler ran; its return value overwrites the held
error (last writer wins) and so decides whether the loop terminates on that
event. -/
theorem c3_catch_all_last_writer (w : Watcher) (stat : StatOracle) (e : Event)
    (rest : List LoopInput) (f : Handler)
    (hall : w.onAll = some f) :
    (dispatchEvent w stat e).allInvoked = true
    ∧ (dispatchEvent w stat e).err =
        f e (stat e.name).1 (categoryErr w stat e)
    ∧ watchLoop w stat (.ev e :: rest) =
        (match f e (stat e.name).1 (categoryErr w stat e) with
         | some er => ([e], some (some er, 0))
         | none => (e :: (watchLoop w stat rest).1, (watchLoop w stat rest).2)) := by
  have hd : (dispatchEvent w stat e).err =
      f e (stat e.name).1 (categoryErr w stat e) := by
    simp [dispatchEvent, categoryErr, hall]
  have ha : (dispatchEvent w stat e).allInvoked = true := by
    simp [dispatchEvent, hall]
  refine ⟨ha, hd, ?_⟩
  rcases hf : f e (stat e.name).1 (categoryErr w stat e) with _ | er <;>
    simp only [watchLoop, hd, hf]

/-- Witness for C3: with only a failing catch-all registered, the catch-all
runs on a write event and its error terminates the loop. -/
theorem c3_witness :
    wAllBoom.onAll = some handlerBoom ∧
    ((dispatchEvent wAllBoom statEx evWrite).allInvoked = true
    ∧ (dispatchEvent wAllBoom statEx evWrite).err =
        handlerBoom evWrite (statEx evWrite.name).1
          (categoryErr wAllBoom statEx evWrite)
    ∧ watchLoop wAllBoom statEx (.ev evWrite :: []) =
        (match handlerBoom evWrite (statEx evWrite.name).1
            (categoryErr wAllBoom statEx evWrite) with
         | some er => ([evWrite], some (some er, 0))
         | none => (evWrite :: (watchLoop wAllBoom statEx []).1,
             (watchLoop wAllBoom statEx []).2))) :=
  ⟨rfl, c3_catch_all_last_writer wAllBoom statEx evWrite [] handlerBoom rfl⟩

/-- A run of events that all leave a nil held error is consumed without
terminating the loop; every such event is processed in order. -/
theorem watchLoop_clean_run : ∀ (w : Watcher) (stat : StatOracle)
    (pre rest : List LoopInput),
    (∀ i ∈ pre, ∃ e, i = .ev e ∧ (dispatchEvent w stat e).err = none) →
    watchLoop w stat (pre ++ rest) =
      (eventsOf pre ++ (watchLoop w stat rest).1, (watchLoop w stat rest).2)
  | _, _, [], rest, _ => by simp [eventsOf]
  | w, stat, i :: pre, rest, hpre => by
    obtain ⟨e, rfl, hnone⟩ := hpre i (List.mem_cons_self i pre)
    have ih := watchLoop_clean_run w stat pre rest
      (fun j hj => hpre j (List.mem_cons_of_mem _ hj))
    simp only [List.cons_append, watchLoop, hnone, List.append_eq]
    rw [ih]
    simp [eventsOf]

/-- Every terminating run of the dispatch loop closes the notification
resource exactly once when it returns nil (the shutdown path) and never
when it returns an error (the handler-error and source-error paths). -/
theorem watchLoop_closes : ∀ (w : Watcher) (stat : StatOracle)
    (inputs : List LoopInput) (es : List Event) (ret : Option Err) (c : Nat),
    watchLoop w stat inputs = (es, some (ret, c)) →
    c = if ret = none then 1 else 0
  | _, _, [], es, ret, c => by simp [watchLoop]
  | w, stat, .ev e :: rest, es, ret, c => by
    intro h
    rcases hd : (dispatchEvent w stat e).err with _ | er
    · simp only [watchLoop, hd] at h
      have h2 : (watchLoop w stat rest).2 = some (ret, c) :=
        (Prod.mk.injEq _ _ _ _ |>.mp h).2
      exact watchLoop_closes w stat rest (watchLoop w stat rest).1 ret c
        (by rw [← h2])
    · simp only [watchLoop, hd, Prod.mk.injEq, Option.some.injEq] at h
      obtain ⟨-, h2, h3⟩ := h
      subst h2; subst h3
      simp
  | _, _, .done :: _, es, ret, c => by
    intro h
    simp only [watchLoop, Prod.mk.injEq, Option.some.injEq] at h
    obtain ⟨-, h2, h3⟩ := h
    subst h2; subst h3
    simp
  | _, _, .srcErr er :: _, es, ret, c => by
    intro h
    simp only [watchLoop, Prod.mk.injEq, Option.some.injEq] at h
    obtain ⟨-, h2, h3⟩ := h
    subst h2; subst h3
    simp

/-- C4: consuming the shutdown signal sent by Done() while the dispatch
loop runs makes Watch return nil with the notification resource closed
exactly once; the resource is closed on no other termination path (a
terminating loop closes once exactly when it returns nil, and only a
consumed shutdown signal returns nil). -/
theorem c4_clean_shutdown :
    (∀ (w : Watcher) (stat : StatOracle) (pre rest : List LoopInput),
      Watcher.List w ≠ [] → w.hasCallbacks = true →
      (∀ i ∈ pre, ∃ e, i = .ev e ∧ (dispatchEvent w stat e).err = none) →
      Watch w stat (pre ++ .done :: rest) =
        .terminated none 1 (eventsOf pre))
    ∧ (∀ (w : Watcher) (stat : StatOracle) (inputs : List LoopInput)
        (es : List Event) (ret : Option Err) (c : Nat),
        watchLoop w stat inputs = (es, some (ret, c)) →
        c = if ret = none then 1 else 0) := by
  constructor
  · intro w stat pre rest hpaths hcb hpre
    have hlen : ¬ (Watcher.List w).length = 0 := by simpa using hpaths
    unfold Watch
    rw [if_neg hlen, hcb]
    rw [watchLoop_clean_run w stat pre (.done :: rest) hpre]
    simp [watchLoop]
  · exact watchLoop_closes

/-- Witness for C4: after one clean event, consuming the shutdown signal
returns nil with one close. -/
theorem c4_witness :
    wAllOk.List ≠ [] ∧ wAllOk.hasCallbacks = true ∧
    Watch wAllOk statEx ([LoopInput.ev evWrite] ++ LoopInput.done :: []) =
      .terminated none 1 (eventsOf [LoopInput.ev evWrite]) :=
  ⟨by decide, rfl,
    c4_clean_shutdown.1 wAllOk statEx [LoopInput.ev evWrite] [] (by decide) rfl
      (by
        intro i hi
        simp only [List.mem_singleton] at hi
        exact ⟨evWrite, hi, by decide⟩)⟩

/-- C5: on a watcher with an empty watch set, Watch returns the no-targets
error synchronously (before the dispatch goroutine is started) and the
watch set stays empty. -/
theorem c5_no_targets (w : Watcher) (stat : StatOracle)
    (inputs : List LoopInput) (h : Watcher.List w = []) :
    Watch w stat inputs = .precondErr noTargetsError ∧ Watcher.List w = [] := by
  refine ⟨?_, h⟩
  unfold Watch
  rw [if_pos]
  rw [h]
  rfl

/-- Witness for C5: a freshly constructed watcher has no targets and Watch
rejects it. -/
theorem c5_witness :
    Watcher.List (New (fsnEmpty, none)).1 = [] ∧
    (Watch (New (fsnEmpty, none)).1 statEx [] = .precondErr noTargetsError
      ∧ Watcher.List (New (fsnEmpty, none)).1 = []) :=
  ⟨rfl, c5_no_targets (New (fsnEmpty, none)).1 statEx [] rfl⟩

/-- A walk's fold over entries never touches the callback flag. -/
theorem foldWalk_hasCallbacks : ∀ (entries : List WalkEntry) (w : Watcher),
    (entries.foldl
      (fun acc en => if en.isDir then (acc.AddPath en.path).1 else acc)
      w).hasCallbacks = w.hasCallbacks
  | [], _ => rfl
  | en :: rest, w => by
    simp only [List.foldl_cons]
    rw [foldWalk_hasCallbacks rest]
    by_cases h : en.isDir <;> simp [h, Watcher.AddPath]

/-- A glob's fold over matches never touches the callback flag. -/
theorem foldGlob_hasCallbacks : ∀ (ms : List String) (w : Watcher),
    (ms.foldl (fun acc p => (acc.AddPath p).1) w).hasCallbacks
      = w.hasCallbacks
  | [], _ => rfl
  | p :: rest, w => by
    simp only [List.foldl_cons]
    rw [foldGlob_hasCallbacks rest]
    rfl

/-- Path-registration calls never touch the callback flag. -/
theorem applyPathOps_hasCallbacks : ∀ (ops : List PathOp) (w : Watcher),
    (applyPathOps w ops).hasCallbacks = w.hasCallbacks
  | [], _ => rfl
  | op :: rest, w => by
    show (applyPathOps (applyPathOp w op) rest).hasCallbacks = _
    rw [applyPathOps_hasCallbacks rest]
    cases op with
    | add p => rfl
    | walk entries => exact foldWalk_hasCallbacks entries w
    | glob ms => exact foldGlob_hasCallbacks ms w

/-- C6: on a watcher built by New and any sequence of path registrations —
so with at least one target but no handler registered through On or All —
Watch returns the no-handlers error synchronously. -/
theorem c6_no_handlers (fsnCtor : FsnState × Option Err) (ops : List PathOp)
    (stat : StatOracle) (inputs : List LoopInput)
    (h : Watcher.List (applyPathOps (New fsnCtor).1 ops) ≠ []) :
    Watch (applyPathOps (New fsnCtor).1 ops) stat inputs =
      .precondErr noHandlersError := by
  have hcb : (applyPathOps (New fsnCtor).1 ops).hasCallbacks = false :=
    applyPathOps_hasCallbacks ops (New fsnCtor).1
  have hlen : ¬ (Watcher.List (applyPathOps (New fsnCtor).1 ops)).length = 0 := by
    simpa using h
  unfold Watch
  rw [if_neg hlen, hcb]
  rfl

/-- Witness for C6: one registered path and no handlers. -/
theorem c6_witness :
    Watcher.List (applyPathOps (New (fsnEmpty, none)).1 [PathOp.add "a"]) ≠ [] ∧
    Watch (applyPathOps (New (fsnEmpty, none)).1 [PathOp.add "a"]) statEx [] =
      .precondErr noHandlersError :=
  ⟨by decide,
    c6_no_handlers (fsnEmpty, none) [PathOp.add "a"] statEx [] (by decide)⟩

/-- C7: On with a category value outside the five recognized categories
returns the unsupported-category error and leaves the whole watcher — in
particular every previously registered handler — unchanged. -/
theorem c7_unsupported_category (w : Watcher) (f : Handler) (cat : Nat)
    (h1 : cat ≠ Write) (h2 : cat ≠ Create) (h3 : cat ≠ Remove)
    (h4 : cat ≠ Rename) (h5 : cat ≠ Chmod) :
    Watcher.On w cat f = (w, some (Err.eventNotSupported cat)) := by
  unfold Watcher.On
  rw [if_neg h1, if_neg h2, if_neg h3, if_neg h4, if_neg h5]

/-- Witness for C7: the zero sentinel op value is rejected and the watcher
is untouched. -/
theorem c7_witness :
    (0 ≠ Write ∧ 0 ≠ Create ∧ 0 ≠ Remove ∧ 0 ≠ Rename ∧ 0 ≠ Chmod) ∧
    Watcher.On wAllOk 0 handlerOk = (wAllOk, some (Err.eventNotSupported 0)) :=
  ⟨by decide,
    c7_unsupported_category wAllOk handlerOk 0 (by decide) (by decide)
      (by decide) (by decide) (by decide)⟩

/-- The registry a walk leaves behind is the fold of the collaborator's Add
over the walk's directory paths. -/
theorem walkPath_fsnotify : ∀ (entries : List WalkEntry) (w : Watcher),
    ((w.WalkPath entries).1).fsnotify = addAll w.fsnotify (dirPaths entries)
  | [], _ => rfl
  | en :: rest, w => by
    simp only [Watcher.WalkPath, List.foldl_cons]
    by_cases h : en.isDir
    · rw [if_pos h]
      have ih := walkPath_fsnotify rest (w.AddPath en.path).1
      simp only [Watcher.WalkPath] at ih
      rw [ih]
      simp [dirPaths, List.filter_cons, h, addAll, Watcher.AddPath]
    · rw [if_neg h]
      have ih := walkPath_fsnotify rest w
      simp only [Watcher.WalkPath] at ih
      rw [ih]
      simp [dirPaths, List.filter_cons, h]

/-- Folding Add over fresh, duplicate-free paths appends exactly those
paths to the registry. -/
theorem addAll_paths : ∀ (l : List String) (s : FsnState),
    (∀ x ∈ l, x ∉ s.paths) → l.Nodup →
    (addAll s l).paths = s.paths ++ l
  | [], _, _, _ => by simp [addAll]
  | p :: rest, s, hfresh, hnd => by
    have hp : p ∉ s.paths := hfresh p (List.mem_cons_self p rest)
    have hstep : addAll s (p :: rest) = addAll ⟨s.paths ++ [p]⟩ rest := by
      simp [addAll, FsnState.Add, hp]
    rw [hstep]
    rw [addAll_paths rest ⟨s.paths ++ [p]⟩
      (by
        intro x hx hmem
        rcases List.mem_append.mp hmem with hxs | hxp
        · exact hfresh x (List.mem_cons_of_mem _ hx) hxs
        · have hxe : x = p := by simpa using hxp
          exact (List.nodup_cons.mp hnd).1 (hxe ▸ hx))
      (List.nodup_cons.mp hnd).2]
    simp

/-- C8: a successful walk over a tree with D directory entries and F plain
files registers exactly the D directory paths — the resulting watch list is
the walk's directory paths, has exactly D entries, and contains no plain
file path. -/
theorem c8_walk_registers_only_dirs (entries : List WalkEntry) (w : Watcher)
    (hw : Watcher.List w = []) (hnd : (dirPaths entries).Nodup)
    (hdisj : filePaths entries ∩ dirPaths entries = []) :
    (w.WalkPath entries).2 = none
    ∧ Watcher.List (w.WalkPath entries).1 = dirPaths entries
    ∧ (Watcher.List (w.WalkPath entries).1).length =
        (entries.filter (fun en => en.isDir)).length
    ∧ filePaths entries ∩ Watcher.List (w.WalkPath entries).1 = [] := by
  have hw' : w.fsnotify.paths = [] := hw
  have hpaths : Watcher.List (w.WalkPath entries).1 = dirPaths entries := by
    unfold Watcher.List
    rw [walkPath_fsnotify entries w]
    rw [addAll_paths (dirPaths entries) w.fsnotify
      (by intro x hx; rw [hw']; simp) hnd]
    rw [hw']
    simp
  refine ⟨rfl, hpaths, ?_, ?_⟩
  · rw [hpaths]
    simp [dirPaths]
  · rw [hpaths]
    exact hdisj

/-- Witness for C8: a root with one subdirectory and one plain file yields
a watch list of exactly the two directory paths. -/
theorem c8_witness :
    Watcher.List (New (fsnEmpty, none)).1 = [] ∧
    (dirPaths walkEx).Nodup ∧
    filePaths walkEx ∩ dirPaths walkEx = [] ∧
    (((New (fsnEmpty, none)).1.WalkPath walkEx).2 = none
    ∧ Watcher.List ((New (fsnEmpty, none)).1.WalkPath walkEx).1 =
        dirPaths walkEx
    ∧ (Watcher.List ((New (fsnEmpty, none)).1.WalkPath walkEx).1).length =
        (walkEx.filter (fun en => en.isDir)).length
    ∧ filePaths walkEx ∩
        Watcher.List ((New (fsnEmpty, none)).1.WalkPath walkEx).1 = []) :=
  ⟨rfl, by decide, by decide,
    c8_walk_registers_only_dirs walkEx (New (fsnEmpty, none)).1 rfl
      (by decide) (by decide)⟩

/-- When the switch selects no handler (no matching case, or a matching
case whose field is nil), the category phase leaves the held error
untouched and invokes nothing. -/
theorem categoryStep_selected_none (w : Watcher) (e : Event)
    (info : Option FileInfo) (err0 : Option Err)
    (hsel : selectedHandler w e.op = none) :
    categoryStep w e info err0 = (err0, []) := by
  unfold selectedHandler at hsel
  unfold categoryStep
  by_cases hW : hasOp e.op Write
  · rw [if_pos hW] at hsel ⊢
    rw [hsel]
  · rw [if_neg hW] at hsel ⊢
    by_cases hC : hasOp e.op Create
    · rw [if_pos hC] at hsel ⊢
      rw [hsel]
    · rw [if_neg hC] at hsel ⊢
      by_cases hR : hasOp e.op Remove
      · rw [if_pos hR] at hsel ⊢
        rw [hsel]
      · rw [if_neg hR] at hsel ⊢
        by_cases hN : hasOp e.op Rename
        · rw [if_pos hN] at hsel ⊢
          rw [hsel]
        · rw [if_neg hN] at hsel ⊢
          by_cases hM : hasOp e.op Chmod
          · rw [if_pos hM] at hsel ⊢
            rw [hsel]
          · rw [if_neg hM]

/-- C9: an event whose primary category has no registered handler, on a
watcher with no catch-all, turns a stat failure into the watch's terminal
error — the watch dies on an error no handler ever observed. -/
theorem c9_stat_error_terminates (w : Watcher) (stat : StatOracle) (e : Event)
    (rest : List LoopInput) (i : Option FileInfo) (er : Err)
    (hsel : selectedHandler w e.op = none) (hall : w.onAll = none)
    (hstat : stat e.name = (i, some er))
    (hpaths : Watcher.List w ≠ []) (hcb : w.hasCallbacks = true) :
    Watch w stat (.ev e :: rest) = .terminated (some er) 0 [e] := by
  apply watch_step_fatal w stat e rest er hpaths hcb
  have hcs := categoryStep_selected_none w e i (some er) hsel
  simp [dispatchEvent, hall, hcs, hstat]

/-- Witness for C9: only a Chmod handler registered, a Write event whose
stat fails: the stat error terminates the watch unobserved. -/
theorem c9_witness :
    selectedHandler wChmodOnly evWrite.op = none ∧
    wChmodOnly.onAll = none ∧
    statFailEx evWrite.name = (none, some (Err.msg "stat fail")) ∧
    Watcher.List wChmodOnly ≠ [] ∧ wChmodOnly.hasCallbacks = true ∧
    Watch wChmodOnly statFailEx [LoopInput.ev evWrite] =
      .terminated (some (Err.msg "stat fail")) 0 [evWrite] :=
  ⟨rfl, rfl, rfl, by decide, rfl,
    c9_stat_error_terminates wChmodOnly statFailEx evWrite [] none
      (Err.msg "stat fail") rfl rfl rfl (by decide) rfl⟩

/-- C10: New never returns a non-nil error — it returns a watcher wrapping
whatever the collaborator constructor produced together with a nil error,
silently discarding any constructor failure. -/
theorem c10_new_never_errors (fsnCtor : FsnState × Option Err) :
    (New fsnCtor).2 = none ∧ (New fsnCtor).1.fsnotify = fsnCtor.1 :=
  ⟨rfl, rfl⟩
